import Mathlib

/-!
Verification of the upload validation/reconciliation pipeline of
`technical_como.py` (dashboard for equipment-monitoring sensor readings).

The pandas/streamlit upload path (steps 2-7 of the "Upload New Data" page)
is shallowly embedded: a DataFrame is a list of column names plus rows of
positional cell values; pandas cell values (NaN / string / numeric) become
the inductive type `Value`; the database table is itself a `DataFrame`;
`st.stop()`-style aborts become an `Except` error monad; the sequence of
`st.info` / `st.warning` / `st.error` / `st.success` status messages of a
run is reproduced by `uploadLog`.
-/

namespace TCM

/-- A pandas cell value: missing (NaN/None), a string, or a numeric value.
Keys are compared as integers after `astype(int)`, so numbers are `Int`. -/
inductive Value where
  | null : Value
  | str (s : String) : Value
  | num (n : Int) : Value
deriving DecidableEq, Repr

/-- A DataFrame: column names plus rows of cell values, positionally
aligned with the column list. -/
structure DataFrame where
  cols : List String
  rows : List (List Value)
deriving DecidableEq, Repr

/-- Strip leading and trailing whitespace from a character list
(Python `str.strip()`). -/
def trimWs (cs : List Char) : List Char :=
  ((cs.dropWhile Char.isWhitespace).reverse.dropWhile Char.isWhitespace).reverse

/-- Header normalization from `map_and_clean_columns`:
`str(col).lower().strip().replace(' ', '_').replace('(', '').replace(')', '')`,
carried out on the character list of the string. -/
def normalizeCol (s : String) : String :=
  ⟨((trimWs (s.data.map Char.toLower)).map
      (fun c => if c = ' ' then '_' else c)).filter
      (fun c => c ≠ '(' && c ≠ ')')⟩

/-- The `COLUMN_MAPPING` dictionary of `map_and_clean_columns`. -/
def COLUMN_MAPPING : List (String × String) :=
  [("identifier", "identifier"),
   ("equipment_tag_id", "equipment_tag_id"),
   ("equipment_name", "equipment_name"),
   ("technology", "technology"),
   ("component", "component"),
   ("key", "key"),
   ("alarm_standard", "alarm_standard"),
   ("date", "date"),
   ("measurement_point", "point_measurement"),
   ("value", "value"),
   ("unit", "unit"),
   ("status", "status"),
   ("excellent", "excellent"),
   ("acceptable", "acceptable"),
   ("alarm_yellow_warning", "alarm_yellow_warning"),
   ("unacceptable_alarm", "unacceptable"),
   ("note", "note")]

/-- The effect of `df.rename(columns=rename_dict)` on one header: a header
whose normalization is a recognized source name is renamed to the mapped
database name, any other header is left unchanged. -/
def renameHeader (c : String) : String :=
  (COLUMN_MAPPING.lookup (normalizeCol c)).getD c

/-- The multiset `rename_dict.values()`: the mapped database names of the
recognized headers. -/
def mappedTargets (cols : List String) : List String :=
  cols.filterMap (fun c => COLUMN_MAPPING.lookup (normalizeCol c))

/-- The `ignored_columns` list: headers whose normalization is not a
recognized source name. -/
def ignoredColumns (cols : List String) : List String :=
  cols.filter (fun c => (COLUMN_MAPPING.lookup (normalizeCol c)).isNone)

/-- Decimal digit characters of a natural number, most significant first
(Python `f"{i}"`). -/
def decimalChars (n : Nat) : List Char :=
  if n = 0 then ['0'] else ((Nat.digits 10 n).map Nat.digitChar).reverse

/-- A synthesized identifier
`f"generated_{pd.Timestamp.now().strftime('%Y%m%d%H%M%S')}_{i}"`; the
timestamp string `ts` is a parameter of the model. -/
def genId (ts : String) (i : Nat) : String :=
  ⟨"generated_".data ++ (ts.data ++ '_' :: decimalChars i)⟩

/-- Append a synthesized identifier cell to every row, numbering rows from
`start` (the list comprehension over `range(len(df))`). -/
def addGenIds (ts : String) (start : Nat) : List (List Value) → List (List Value)
  | [] => []
  | r :: rs => (r ++ [Value.str (genId ts start)]) :: addGenIds ts (start + 1) rs

/-- `map_and_clean_columns`: if no header maps to `identifier`, a fresh
`identifier` column of synthesized values is appended; then all headers are
renamed.  Returns the renamed DataFrame and the ignored-header list. -/
def mapAndCleanColumns (ts : String) (df : DataFrame) : DataFrame × List String :=
  let df1 :=
    if (mappedTargets df.cols).contains "identifier" then df
    else ⟨df.cols ++ ["identifier"], addGenIds ts 0 df.rows⟩
  (⟨df1.cols.map renameHeader, df1.rows⟩, ignoredColumns df.cols)

/-- The cell of row `r` in column `c`, given the column list `cols`
(missing columns read as null). -/
def cellOf (cols : List String) (r : List Value) (c : String) : Value :=
  r.getD (cols.indexOf c) Value.null

/-- `df.dropna(subset=[c])`: keep the rows whose cell in column `c` is not
null.  Pandas `dropna` removes only NaN/None, not blank strings. -/
def dropNullRows (df : DataFrame) (c : String) : DataFrame :=
  ⟨df.cols, df.rows.filter (fun r => cellOf df.cols r c ≠ Value.null)⟩

/-- `df[db_cols]`: project the DataFrame onto the destination columns, in
destination order. -/
def projectCols (df : DataFrame) (dbCols : List String) : DataFrame :=
  ⟨dbCols, df.rows.map (fun r => dbCols.map (fun c => cellOf df.cols r c))⟩

/-- Parse a non-negative decimal digit string. -/
def parseNat? (cs : List Char) : Option Nat :=
  if !cs.isEmpty && cs.all Char.isDigit then
    some (cs.foldl (fun a c => a * 10 + (c.toNat - 48)) 0)
  else none

/-- Parse an optionally negated decimal integer string. -/
def parseInt? : List Char → Option Int
  | '-' :: rest => (parseNat? rest).map (fun n => -(n : Int))
  | cs => (parseNat? cs).map (fun n => (n : Int))

/-- `pd.to_numeric(v, errors='coerce')` on one cell: numbers pass through,
integer-numeral strings parse, anything else becomes null. -/
def toNumericVal : Value → Value
  | Value.null => Value.null
  | Value.num n => Value.num n
  | Value.str s =>
    match parseInt? s.data with
    | some n => Value.num n
    | none => Value.null

/-- `final_upload_df[key] = pd.to_numeric(final_upload_df[key], errors='coerce')`:
replace the key column by its numeric coercion, other columns unchanged. -/
def coerceKey (df : DataFrame) (key : String) : DataFrame :=
  ⟨df.cols, df.rows.map (fun r => df.cols.map
    (fun c => if c = key then toNumericVal (cellOf df.cols r c) else cellOf df.cols r c))⟩

/-- `df[key].astype(int).tolist()`: the integer key values of the rows
(non-numeric cells contribute nothing). -/
def keyInts (df : DataFrame) (key : String) : List Int :=
  df.rows.filterMap (fun r =>
    match cellOf df.cols r key with
    | Value.num n => some n
    | _ => none)

/-- `sorted(list(set(l)))` for integer key lists. -/
def sortIntsDedup (l : List Int) : List Int :=
  List.insertionSort (· ≤ ·) l.dedup

/-- The `unique_key_map` dictionary: per-table uniqueness-key column. -/
def uniqueKeyMap : List (String × String) :=
  [("data", "identifier"), ("alarm_standards", "standard"), ("component", "point")]

/-- The upload-path failure modes that abort the run via `st.stop()`. -/
inductive UploadError where
  | missingIdentifier : UploadError
  | noValidData : UploadError
  | missingColumns (missing : List String) : UploadError
  | duplicateKeys (dups : List Int) : UploadError
deriving DecidableEq, Repr

/-- The `duplicate_ids` list of step 6: `existing_ids` is the result of
the `key IN (...)` query over the incoming ids, and `duplicate_ids` keeps
the incoming ids found among them (with multiplicity). -/
def dupIdsOf (dbKeys ids : List Int) : List Int :=
  let existing := dbKeys.filter (fun x => ids.contains x)
  ids.filter (fun i => existing.contains i)

/-- The duplicate check proper (step 6 after coercion): extract the
incoming integer keys, query the matching existing keys, and fail on a
non-empty intersection, reporting `sorted(list(set(duplicate_ids)))`.
When the incoming key list is empty the check is skipped
(`if upload_ids:`). -/
def dupCheck (dbKeys : List Int) (key : String) (fdf : DataFrame) :
    Except UploadError DataFrame :=
  let ids := keyInts fdf key
  if ids.isEmpty then .ok fdf
  else
    let dups := dupIdsOf dbKeys ids
    if dups.isEmpty then .ok fdf
    else .error (.duplicateKeys (sortIntsDedup dups))

/-- Step 7: `to_sql(..., if_exists='append')` plus the reported row count. -/
def appendStep (db fdf : DataFrame) : Except UploadError (DataFrame × Nat) :=
  .ok (⟨db.cols, db.rows ++ fdf.rows⟩, fdf.rows.length)

/-- Step 2 of the upload pipeline: column mapping. -/
def step2 (ts : String) (raw : DataFrame) : DataFrame :=
  (mapAndCleanColumns ts raw).1

/-- Step 3 of the upload pipeline: `dropna(subset=['identifier'])`. -/
def step3 (df : DataFrame) : DataFrame :=
  dropNullRows df "identifier"

/-- The upload pipeline, steps 2-7: map columns, drop null identifiers,
check required columns, project onto the destination schema, run the
coercion and duplicate check for tables with a mapped uniqueness key, and
append.  Returns the new table state and the appended row count, or the
error at which the run stopped. -/
def uploadPipeline (ts table : String) (db raw : DataFrame) :
    Except UploadError (DataFrame × Nat) :=
  let df2 := step2 ts raw
  if df2.cols.contains "identifier" then
    let df3 := step3 df2
    if df3.rows.isEmpty then .error .noValidData
    else
      let missing := db.cols.filter (fun c => !(df3.cols.contains c))
      if missing.isEmpty then
        let fdf := projectCols df3 db.cols
        match uniqueKeyMap.lookup table with
        | some key =>
          if fdf.cols.contains key then
            let fdf2 := dropNullRows (coerceKey fdf key) key
            match dupCheck (keyInts db key) key fdf2 with
            | .ok f => appendStep db f
            | .error e => .error e
          else appendStep db fdf
        | none => appendStep db fdf
      else .error (.missingColumns missing)
  else .error .missingIdentifier

/-- One full upload action: on any validation error the run stops before
the append, leaving the table untouched and writing no rows. -/
def runUpload (ts table : String) (db raw : DataFrame) : DataFrame × Option Nat :=
  match uploadPipeline ts table db raw with
  | .ok (t, n) => (t, some n)
  | .error _ => (db, none)

/-- The status messages an upload run shows (`st.info` / `st.warning` /
`st.error` / `st.success` calls of steps 2-7), with the data each message
interpolates; raw-data previews (`st.dataframe`) are not messages. -/
inductive Msg where
  | attemptingMap : Msg
  | autoGeneratedIdentifier : Msg
  | ignoredColumnsWarning (cols : List String) : Msg
  | missingIdentifierError : Msg
  | noValidDataError : Msg
  | verifyingColumns (table : String) : Msg
  | missingColumnsError (missing : List String) : Msg
  | validatingTypes (key : String) : Msg
  | checkingDuplicates (key : String) : Msg
  | duplicatesError (count : Nat) (ids : List Int) : Msg
  | appendingRows (count : Nat) (table : String) : Msg
  | successRows (count : Nat) (table : String) : Msg
  | clearingCache : Msg
deriving DecidableEq, Repr

/-- The messages of a successful step 7: "Appending n valid rows...",
the success banner, and the cache-clearing notice. -/
def appendMsgs (table : String) (fdf : DataFrame) : List Msg :=
  [Msg.appendingRows fdf.rows.length table,
   Msg.successRows fdf.rows.length table,
   Msg.clearingCache]

/-- The full status-message log of an upload run, following the control
flow of `uploadPipeline` step by step. -/
def uploadLog (ts table : String) (db raw : DataFrame) : List Msg :=
  let pre := [Msg.attemptingMap]
      ++ (if (mappedTargets raw.cols).contains "identifier" then []
          else [Msg.autoGeneratedIdentifier])
      ++ (if (ignoredColumns raw.cols).isEmpty then []
          else [Msg.ignoredColumnsWarning (ignoredColumns raw.cols)])
  let df2 := step2 ts raw
  pre ++
  (if df2.cols.contains "identifier" then
    let df3 := step3 df2
    if df3.rows.isEmpty then [Msg.noValidDataError]
    else
      let missing := db.cols.filter (fun c => !(df3.cols.contains c))
      Msg.verifyingColumns table ::
      (if missing.isEmpty then
        let fdf := projectCols df3 db.cols
        match uniqueKeyMap.lookup table with
        | some key =>
          if fdf.cols.contains key then
            Msg.validatingTypes key :: Msg.checkingDuplicates key ::
            (let fdf2 := dropNullRows (coerceKey fdf key) key
             match dupCheck (keyInts db key) key fdf2 with
             | .ok f => appendMsgs table f
             | .error (.duplicateKeys ds) =>
               [Msg.duplicatesError (dupIdsOf (keyInts db key) (keyInts fdf2 key)).length ds]
             | .error _ => [])
          else appendMsgs table fdf
        | none => appendMsgs table fdf
      else [Msg.missingColumnsError missing])
  else [Msg.missingIdentifierError])

/-- Modelled from the spec: the strict reconciliation policy of other
script iterations of this repository (the script under `src/` implements
only the lenient policy).  The uploaded column set must equal the
destination column set exactly; any mismatch is a hard failure reporting
both the missing and the extra column lists. -/
def strictReconcile (upCols dbCols : List String) :
    Except (List String × List String) Unit :=
  let missing := dbCols.filter (fun c => !(upCols.contains c))
  let extra := upCols.filter (fun c => !(dbCols.contains c))
  if missing.isEmpty && extra.isEmpty then .ok ()
  else .error (missing, extra)

/-- Modelled from the spec: the column set of the `data` table (the
database schema is introspected at run time and is not part of the
source); the spec's Record lists these fields, with `identifier` the
uniqueness key. -/
def dataCols : List String :=
  ["equipment_tag_id", "equipment_name", "component", "point_measurement",
   "date", "value", "unit", "status", "note", "alarm_standard", "identifier"]

/-- The `data` columns without the `identifier` key (an upload file whose
identifier must be synthesized). -/
def dataColsNoId : List String :=
  ["equipment_tag_id", "equipment_name", "component", "point_measurement",
   "date", "value", "unit", "status", "note", "alarm_standard"]

/-- Modelled from the spec: the column set of the `alarm_standards` table,
with `standard` the uniqueness key. -/
def alarmStandardsCols : List String :=
  ["standard", "excellent", "acceptable", "requires_evaluation", "unacceptable"]

/-- An empty `data` table. -/
def dbEmpty : DataFrame := ⟨dataCols, []⟩

/-- A `data` row whose identifier is the integer `k` and whose other cells
are null. -/
def dupRow (k : Int) : List Value :=
  [Value.null, Value.null, Value.null, Value.null, Value.null, Value.null,
   Value.null, Value.null, Value.null, Value.null, Value.num k]

/-- An upload of two rows that share the identifier `k`. -/
def dupRaw (k : Int) : DataFrame := ⟨dataCols, [dupRow k, dupRow k]⟩

/-- Follows the spec's words: a "blank" key value is a string consisting
only of whitespace (after CSV parsing a truly empty field is already NaN,
i.e. `Value.null`). -/
def isBlankKey : Value → Bool
  | Value.str s => s.data.all Char.isWhitespace
  | _ => false

/-- The number of rows the numeric coercion of step 6 silently removes:
rows present after projection whose key cell fails `pd.to_numeric`. -/
def coercionDropCount (ts table : String) (db raw : DataFrame) : Nat :=
  let fdf := projectCols (step3 (step2 ts raw)) db.cols
  match uniqueKeyMap.lookup table with
  | some key => fdf.rows.length - (dropNullRows (coerceKey fdf key) key).rows.length
  | none => 0

/-- An existing `data` table holding the single identifier 5. -/
def dbDup : DataFrame := ⟨dataCols, [dupRow 5]⟩

/-! ### Helper lemmas -/

theorem cellOf_map {cols : List String} (g : String → Value) {c : String}
    (hc : c ∈ cols) : cellOf cols (cols.map g) c = g c := by
  induction cols with
  | nil => cases hc
  | cons a l ih =>
    by_cases h : a = c
    · subst h
      simp [cellOf, List.indexOf_cons_self]
    · have hc' : c ∈ l := by
        rcases List.mem_cons.mp hc with h1 | h1
        · exact absurd h1.symm h
        · exact h1
      have hidx : List.indexOf c (a :: l) = (List.indexOf c l).succ :=
        List.indexOf_cons_ne l h
      simp only [cellOf, List.map_cons, hidx, List.getD]
      exact ih hc'

theorem mem_dupIdsOf {dbKeys ids : List Int} {x : Int} :
    x ∈ dupIdsOf dbKeys ids ↔ x ∈ ids ∧ x ∈ dbKeys := by
  simp only [dupIdsOf, List.mem_filter, List.elem_iff]
  constructor
  · rintro ⟨hx, hy, -⟩
    exact ⟨hx, hy⟩
  · rintro ⟨hx, hy⟩
    exact ⟨hx, hy, hx⟩

theorem mem_sortIntsDedup {l : List Int} {x : Int} :
    x ∈ sortIntsDedup l ↔ x ∈ l := by
  simp [sortIntsDedup, List.mem_insertionSort, List.mem_dedup]

theorem sortIntsDedup_sorted (l : List Int) :
    (sortIntsDedup l).Sorted (· ≤ ·) :=
  List.sorted_insertionSort _ _

theorem sortIntsDedup_nodup (l : List Int) : (sortIntsDedup l).Nodup :=
  (List.perm_insertionSort _ _).nodup_iff.mpr (List.nodup_dedup l)

theorem getD_append_length (l : List Value) (v : Value) :
    (l ++ [v]).getD l.length Value.null = v := by
  induction l with
  | nil => rfl
  | cons a t ih => exact ih

theorem addGenIds_length (ts : String) :
    ∀ (start : Nat) (rows : List (List Value)),
      (addGenIds ts start rows).length = rows.length := by
  intro start rows
  induction rows generalizing start with
  | nil => rfl
  | cons r t ih => simp [addGenIds, ih]

theorem addGenIds_getD (ts : String) {L : Nat} :
    ∀ (start : Nat) (rows : List (List Value)), (∀ r ∈ rows, r.length = L) →
      ∀ r ∈ addGenIds ts start rows, ∃ i, r.getD L Value.null = Value.str (genId ts i) := by
  intro start rows
  induction rows generalizing start with
  | nil => intro _ r hr; cases hr
  | cons a t ih =>
    intro h r hr
    rcases List.mem_cons.mp hr with h1 | h1
    · subst h1
      refine ⟨start, ?_⟩
      rw [← h a (List.mem_cons_self a t)]
      exact getD_append_length a _
    · exact ih (start + 1) (fun r hr => h r (List.mem_cons_of_mem a hr)) r h1

theorem addGenIds_cells (ts : String) {L : Nat} :
    ∀ (start : Nat) (rows : List (List Value)), (∀ r ∈ rows, r.length = L) →
      (addGenIds ts start rows).map (fun r => r.getD L Value.null) =
        (List.range' start rows.length).map (fun i => Value.str (genId ts i)) := by
  intro start rows
  induction rows generalizing start with
  | nil => intro _; rfl
  | cons a t ih =>
    intro h
    simp only [addGenIds, List.map_cons, List.length_cons, List.range', List.map]
    rw [ih (start + 1) (fun r hr => h r (List.mem_cons_of_mem a hr))]
    have hcell : (a ++ [Value.str (genId ts start)]).getD L Value.null =
        Value.str (genId ts start) := by
      rw [← h a (List.mem_cons_self a t)]
      exact getD_append_length a _
    rw [hcell]

theorem digitChar_inj_below :
    ∀ d1, d1 < 10 → ∀ d2, d2 < 10 → Nat.digitChar d1 = Nat.digitChar d2 → d1 = d2 := by
  decide

theorem map_digitChar_inj :
    ∀ (l1 l2 : List Nat), (∀ d ∈ l1, d < 10) → (∀ d ∈ l2, d < 10) →
      l1.map Nat.digitChar = l2.map Nat.digitChar → l1 = l2 := by
  intro l1
  induction l1 with
  | nil =>
    intro l2 _ _ h
    exact (List.map_eq_nil_iff.mp h.symm).symm
  | cons d t ih =>
    intro l2 h1 h2 h
    cases l2 with
    | nil => cases h
    | cons e u =>
      simp only [List.map_cons, List.cons.injEq] at h
      have hd : d = e :=
        digitChar_inj_below d (h1 d (List.mem_cons_self d t)) e
          (h2 e (List.mem_cons_self e u)) h.1
      have ht : t = u :=
        ih u (fun x hx => h1 x (List.mem_cons_of_mem d hx))
          (fun x hx => h2 x (List.mem_cons_of_mem e hx)) h.2
      rw [hd, ht]

theorem decimalChars_inj : ∀ {m n : Nat}, decimalChars m = decimalChars n → m = n := by
  have key : ∀ n : Nat, n ≠ 0 → decimalChars n ≠ ['0'] := by
    intro n hn h
    rw [decimalChars, if_neg hn] at h
    have hmap : (Nat.digits 10 n).map Nat.digitChar = ['0'] := by
      have := congrArg List.reverse h
      simpa using this
    cases hd : Nat.digits 10 n with
    | nil => rw [hd] at hmap; cases hmap
    | cons d t =>
      rw [hd] at hmap
      simp only [List.map_cons, List.cons.injEq] at hmap
      obtain ⟨h1, h2⟩ := hmap
      have hd10 : d < 10 :=
        Nat.digits_lt_base (by norm_num) (hd ▸ List.mem_cons_self d t)
      have hd0 : d = 0 := digitChar_inj_below d hd10 0 (by norm_num) (by rw [h1]; rfl)
      have ht : t = [] := List.map_eq_nil_iff.mp h2
      have hn0 := Nat.ofDigits_digits 10 n
      rw [hd, hd0, ht] at hn0
      simp [Nat.ofDigits] at hn0
      exact hn hn0.symm
  intro m n h
  by_cases hm : m = 0 <;> by_cases hn : n = 0
  · rw [hm, hn]
  · exfalso
    apply key n hn
    rw [← h, decimalChars, if_pos hm]
  · exfalso
    apply key m hm
    rw [h, decimalChars, if_pos hn]
  · rw [decimalChars, if_neg hm, decimalChars, if_neg hn] at h
    have hml : ∀ d ∈ Nat.digits 10 m, d < 10 :=
      fun d hd => Nat.digits_lt_base (by norm_num) hd
    have hnl : ∀ d ∈ Nat.digits 10 n, d < 10 :=
      fun d hd => Nat.digits_lt_base (by norm_num) hd
    have hrev := congrArg List.reverse h
    simp only [List.reverse_reverse] at hrev
    exact Nat.digits.injective 10 (map_digitChar_inj _ _ hml hnl hrev)

theorem genId_inj (ts : String) {i j : Nat} (h : genId ts i = genId ts j) : i = j := by
  have h1 : "generated_".data ++ (ts.data ++ '_' :: decimalChars i) =
      "generated_".data ++ (ts.data ++ '_' :: decimalChars j) := congrArg String.data h
  have h2 := List.append_cancel_left h1
  have h3 := List.append_cancel_left h2
  have h4 : decimalChars i = decimalChars j := by injection h3
  exact decimalChars_inj h4

/-! ### C1: the duplicate check -/

/-- C1: for every upload to a table with a mapped uniqueness key, with
incoming key set `keyInts fdf key` (the keys after null-drop and numeric
coercion) and existing database key set `dbKeys`, the duplicate check
fails if and only if the two sets intersect, on failure it reports exactly
that intersection as a sorted duplicate-free list, and on success it
passes the row set through unchanged. -/
theorem duplicate_check_reports_exact_intersection :
    ∀ (dbKeys : List Int) (key : String) (fdf : DataFrame),
      (∀ f, dupCheck dbKeys key fdf = .ok f → f = fdf) ∧
      ((∃ e, dupCheck dbKeys key fdf = .error e) ↔
        ∃ x, x ∈ keyInts fdf key ∧ x ∈ dbKeys) ∧
      (∀ ds, dupCheck dbKeys key fdf = .error (.duplicateKeys ds) →
        ds.Sorted (· ≤ ·) ∧ ds.Nodup ∧
          ∀ x, (x ∈ ds ↔ x ∈ keyInts fdf key ∧ x ∈ dbKeys)) := by
  intro dbKeys key fdf
  by_cases hids : (keyInts fdf key).isEmpty
  · have hnil : keyInts fdf key = [] := List.isEmpty_iff.mp hids
    refine ⟨?_, ?_, ?_⟩
    · intro f hf
      simpa [dupCheck, hids] using hf.symm
    · simp [dupCheck, hids, hnil]
    · intro ds hds
      simp [dupCheck, hids] at hds
  · by_cases hdups : (dupIdsOf dbKeys (keyInts fdf key)).isEmpty
    · have hnil : dupIdsOf dbKeys (keyInts fdf key) = [] :=
        List.isEmpty_iff.mp hdups
      refine ⟨?_, ?_, ?_⟩
      · intro f hf
        simpa [dupCheck, hids, hdups] using hf.symm
      · simp only [dupCheck, hids, hdups]
        constructor
        · rintro ⟨e, he⟩
          simp at he
        · rintro ⟨x, hx, hy⟩
          have : x ∈ dupIdsOf dbKeys (keyInts fdf key) :=
            mem_dupIdsOf.mpr ⟨hx, hy⟩
          simp [hnil] at this
      · intro ds hds
        simp [dupCheck, hids, hdups] at hds
    · have hne : dupIdsOf dbKeys (keyInts fdf key) ≠ [] := by
        intro h
        simp [h] at hdups
      obtain ⟨d, hd⟩ := List.exists_mem_of_ne_nil _ hne
      refine ⟨?_, ?_, ?_⟩
      · intro f hf
        simp [dupCheck, hids, hdups] at hf
      · constructor
        · intro _
          exact ⟨d, mem_dupIdsOf.mp hd⟩
        · intro _
          exact ⟨.duplicateKeys (sortIntsDedup (dupIdsOf dbKeys (keyInts fdf key))),
            by simp [dupCheck, hids, hdups]⟩
      · intro ds hds
        have hds' : ds = sortIntsDedup (dupIdsOf dbKeys (keyInts fdf key)) := by
          simp only [dupCheck, hids, hdups] at hds
          simp at hds
          exact hds.symm
        subst hds'
        refine ⟨sortIntsDedup_sorted _, sortIntsDedup_nodup _, ?_⟩
        intro x
        rw [mem_sortIntsDedup, mem_dupIdsOf]

/-- Witness for C1 at a concrete conflicting input. -/
theorem duplicate_check_reports_exact_intersection_witness :
    ∃ e, dupCheck [5] "identifier"
      (DataFrame.mk ["identifier"] [[Value.num 5]]) = .error e :=
  (duplicate_check_reports_exact_intersection [5] "identifier"
    (DataFrame.mk ["identifier"] [[Value.num 5]])).2.1.mpr
    ⟨5, by decide, by decide⟩

/-! ### C2: the strict reconciliation policy (modelled from the spec) -/

/-- C2: under the strict reconciliation policy, an upload fails exactly
when its column set differs from the destination's in either direction,
and on failure it reports the exact symmetric difference: the missing
columns (destination minus upload) and the extra columns (upload minus
destination). -/
theorem strict_policy_reports_symmetric_difference :
    ∀ (upCols dbCols : List String),
      ((∃ me, strictReconcile upCols dbCols = .error me) ↔
        ¬ (∀ c, c ∈ upCols ↔ c ∈ dbCols)) ∧
      (∀ m e, strictReconcile upCols dbCols = .error (m, e) →
        ∀ c, (c ∈ m ↔ c ∈ dbCols ∧ c ∉ upCols) ∧
             (c ∈ e ↔ c ∈ upCols ∧ c ∉ dbCols)) := by
  intro upCols dbCols
  by_cases hcond : ((dbCols.filter (fun c => !(upCols.contains c))).isEmpty &&
      (upCols.filter (fun c => !(dbCols.contains c))).isEmpty) = true
  · have hmiss : dbCols.filter (fun c => !(upCols.contains c)) = [] :=
      List.isEmpty_iff.mp (Bool.and_eq_true_iff.mp hcond).1
    have hextra : upCols.filter (fun c => !(dbCols.contains c)) = [] :=
      List.isEmpty_iff.mp (Bool.and_eq_true_iff.mp hcond).2
    have hok : strictReconcile upCols dbCols = .ok () := by
      simp only [strictReconcile]
      rw [if_pos hcond]
    refine ⟨?_, ?_⟩
    · constructor
      · rintro ⟨me, hme⟩
        rw [hok] at hme
        cases hme
      · intro hne
        exfalso
        apply hne
        intro c
        constructor
        · intro hc
          by_contra hdb
          have h1 := List.filter_eq_nil_iff.mp hextra c hc
          simp [List.elem_iff, hdb] at h1
        · intro hc
          by_contra hup
          have h1 := List.filter_eq_nil_iff.mp hmiss c hc
          simp [List.elem_iff, hup] at h1
    · intro m e hme
      rw [hok] at hme
      cases hme
  · have herr : strictReconcile upCols dbCols =
        .error (dbCols.filter (fun c => !(upCols.contains c)),
                upCols.filter (fun c => !(dbCols.contains c))) := by
      simp only [strictReconcile]
      rw [if_neg hcond]
    refine ⟨?_, ?_⟩
    · constructor
      · intro _
        intro hall
        apply hcond
        have h1 : dbCols.filter (fun c => !(upCols.contains c)) = [] := by
          rw [List.filter_eq_nil_iff]
          intro c hc
          simp [List.elem_iff, (hall c).mpr hc]
        have h2 : upCols.filter (fun c => !(dbCols.contains c)) = [] := by
          rw [List.filter_eq_nil_iff]
          intro c hc
          simp [List.elem_iff, (hall c).mp hc]
        rw [h1, h2]
        rfl
      · intro _
        exact ⟨_, herr⟩
    · intro m e hme
      rw [herr] at hme
      injection hme with h
      rw [Prod.mk.injEq] at h
      obtain ⟨hm, he⟩ := h
      subst hm
      subst he
      intro c
      constructor
      · simp [List.mem_filter, List.elem_iff]
      · simp [List.mem_filter, List.elem_iff]

/-- Witness for C2 at a concrete mismatching input. -/
theorem strict_policy_reports_symmetric_difference_witness :
    (∃ me, strictReconcile ["a", "extra"] ["a", "b"] = .error me) ∧
    (∀ c, (c ∈ ["b"] ↔ c ∈ ["a", "b"] ∧ c ∉ ["a", "extra"]) ∧
          (c ∈ ["extra"] ↔ c ∈ ["a", "extra"] ∧ c ∉ ["a", "b"])) :=
  ⟨(strict_policy_reports_symmetric_difference ["a", "extra"] ["a", "b"]).1.mpr
      (fun hall => by have := (hall "extra").mp (by decide); simp at this),
   (strict_policy_reports_symmetric_difference ["a", "extra"] ["a", "b"]).2
      ["b"] ["extra"] (by rfl)⟩

/-! ### C3: the lenient reconciliation path -/

/-- C3: under the lenient policy of the source (steps 4-5), an upload
whose column set contains every destination column passes the
missing-column check, and the projected output has exactly the
destination's columns in destination order with the input's row count;
extra uploaded columns are dropped without an error. -/
theorem lenient_projection_preserves_rows :
    ∀ (df : DataFrame) (dbCols : List String),
      (∀ c ∈ dbCols, c ∈ df.cols) →
        dbCols.filter (fun c => !(df.cols.contains c)) = [] ∧
        (projectCols df dbCols).cols = dbCols ∧
        (projectCols df dbCols).rows.length = df.rows.length := by
  intro df dbCols hsub
  refine ⟨?_, rfl, ?_⟩
  · rw [List.filter_eq_nil_iff]
    intro c hc
    simp [List.elem_iff, hsub c hc]
  · simp [projectCols]

/-- Witness for C3: a two-column upload with one extra column projected
onto a one-column destination. -/
theorem lenient_projection_preserves_rows_witness :
    ["a"].filter (fun c => !((["a", "extra"] : List String).contains c)) = [] ∧
    (projectCols (DataFrame.mk ["a", "extra"] [[Value.num 1, Value.num 2]]) ["a"]).cols
      = ["a"] ∧
    (projectCols (DataFrame.mk ["a", "extra"] [[Value.num 1, Value.num 2]]) ["a"]).rows.length
      = (DataFrame.mk ["a", "extra"] [[Value.num 1, Value.num 2]]).rows.length :=
  lenient_projection_preserves_rows
    (DataFrame.mk ["a", "extra"] [[Value.num 1, Value.num 2]]) ["a"]
    (by decide)

/-! ### C4: normalization is idempotent on canonical headers -/

/-- C4: applying the header normalization and mapping of
`map_and_clean_columns` to a header set that is already canonical (equal
to the database column names) produces the same header set: every
canonical column of the `data` and `alarm_standards` tables renames to
itself, and `map_and_clean_columns` leaves a canonical `data` header list
unchanged (no identifier is synthesized since `identifier` is present). -/
theorem normalization_idempotent_on_canonical :
    dataCols.map renameHeader = dataCols ∧
    alarmStandardsCols.map renameHeader = alarmStandardsCols ∧
    ∀ (ts : String) (df : DataFrame), df.cols = dataCols →
      (step2 ts df).cols = dataCols := by
  refine ⟨by decide, by decide, ?_⟩
  intro ts df h
  obtain ⟨cols, rows⟩ := df
  obtain rfl : cols = dataCols := h
  rfl

/-- Witness for C4 on the empty canonical `data` table. -/
theorem normalization_idempotent_on_canonical_witness :
    (step2 "" dbEmpty).cols = dataCols :=
  normalization_idempotent_on_canonical.2.2 "" dbEmpty rfl

/-! ### C8: failed validation writes nothing -/

/-- C8: every upload that fails validation is aborted wholesale before
the append step: the run yields the original table state and no appended
row count (zero rows written). -/
theorem failed_validation_writes_nothing :
    ∀ (ts table : String) (db raw : DataFrame) (e : UploadError),
      uploadPipeline ts table db raw = .error e →
        runUpload ts table db raw = (db, none) := by
  intro ts table db raw e h
  simp [runUpload, h]

/-- Witness for C8: an upload whose single identifier already exists in
the table fails with exactly that conflict and leaves the table as it
was. -/
theorem failed_validation_writes_nothing_witness :
    uploadPipeline "" "data" dbDup (dupRaw 5) =
      .error (.duplicateKeys [5]) ∧
    runUpload "" "data" dbDup (dupRaw 5) = (dbDup, none) :=
  ⟨by rfl,
   failed_validation_writes_nothing "" "data" dbDup (dupRaw 5)
     (.duplicateKeys [5]) (by rfl)⟩

/-! ### C5: synthesized identifiers are pairwise distinct -/

theorem renameHeader_ne_identifier {cols : List String}
    (hno : (mappedTargets cols).contains "identifier" = false) :
    ∀ c ∈ cols, renameHeader c ≠ "identifier" := by
  intro c hc heq
  cases hlook : COLUMN_MAPPING.lookup (normalizeCol c) with
  | some t =>
    have ht : t = "identifier" := by
      rw [renameHeader, hlook] at heq
      exact heq
    have hmem : "identifier" ∈ mappedTargets cols :=
      List.mem_filterMap.mpr ⟨c, hc, by rw [hlook, ht]⟩
    have htrue : (mappedTargets cols).contains "identifier" = true :=
      List.elem_iff.mpr hmem
    rw [htrue] at hno
    cases hno
  | none =>
    have hcid : c = "identifier" := by
      rw [renameHeader, hlook] at heq
      exact heq
    rw [hcid] at hlook
    exact absurd hlook (by decide)

theorem identifier_index_after_synthesis {cols : List String}
    (hno : (mappedTargets cols).contains "identifier" = false) :
    ((cols ++ ["identifier"]).map renameHeader).indexOf "identifier" = cols.length := by
  have hmap : (cols ++ ["identifier"]).map renameHeader =
      cols.map renameHeader ++ ["identifier"] := by
    rw [List.map_append]
    rfl
  rw [hmap]
  have hnotmem : "identifier" ∉ cols.map renameHeader := by
    intro hmem
    obtain ⟨c, hc, heq⟩ := List.mem_map.mp hmem
    exact renameHeader_ne_identifier hno c hc heq
  rw [List.indexOf_append_of_not_mem hnotmem]
  simp [List.indexOf_cons_self]

/-- C5: when no uploaded column maps to the canonical unique-identifier
column, `map_and_clean_columns` synthesizes per-row identifiers of the
form prefix-timestamp-ordinal, and within a batch the synthesized
identifier cells are exactly `genId ts 0, genId ts 1, ...` and pairwise
distinct, for every batch size. -/
theorem synthesized_identifiers_distinct :
    ∀ (ts : String) (df : DataFrame),
      (mappedTargets df.cols).contains "identifier" = false →
      (∀ r ∈ df.rows, r.length = df.cols.length) →
      ((step2 ts df).rows.map (fun r => cellOf (step2 ts df).cols r "identifier") =
        (List.range df.rows.length).map (fun i => Value.str (genId ts i))) ∧
      ((step2 ts df).rows.map (fun r => cellOf (step2 ts df).cols r "identifier")).Nodup := by
  intro ts df hno hwf
  have hstep2 : step2 ts df =
      ⟨(df.cols ++ ["identifier"]).map renameHeader, addGenIds ts 0 df.rows⟩ := by
    simp only [step2, mapAndCleanColumns]
    rw [if_neg (by intro hcontra; rw [hno] at hcontra; cases hcontra)]
  have hidx : ((df.cols ++ ["identifier"]).map renameHeader).indexOf "identifier" =
      df.cols.length := identifier_index_after_synthesis hno
  have hcells : (step2 ts df).rows.map
      (fun r => cellOf (step2 ts df).cols r "identifier") =
      (List.range df.rows.length).map (fun i => Value.str (genId ts i)) := by
    rw [hstep2]
    simp only [cellOf, hidx]
    rw [addGenIds_cells ts 0 df.rows hwf]
    rw [List.range_eq_range' df.rows.length]
  refine ⟨hcells, ?_⟩
  rw [hcells]
  apply List.Nodup.map
  · intro i j hij
    have : genId ts i = genId ts j := by
      injection hij
    exact genId_inj ts this
  · exact List.nodup_range _

/-- Witness for C5 on a one-row upload with no identifier column. -/
theorem synthesized_identifiers_distinct_witness :
    ((step2 "20250101" (DataFrame.mk dataColsNoId [List.replicate 10 Value.null])).rows.map
      (fun r => cellOf
        (step2 "20250101" (DataFrame.mk dataColsNoId [List.replicate 10 Value.null])).cols
        r "identifier")).Nodup :=
  (synthesized_identifiers_distinct "20250101"
    (DataFrame.mk dataColsNoId [List.replicate 10 Value.null])
    (by decide) (by decide)).2

/-! ### C6: null keys are dropped before validation, blank keys are not -/

/-- A `data` row whose identifier is the whitespace-only string. -/
def blankRow : List Value :=
  [Value.null, Value.null, Value.null, Value.null, Value.null, Value.null,
   Value.null, Value.null, Value.null, Value.null, Value.str " "]

/-- An upload of a single row whose identifier is blank (whitespace). -/
def rawBlank : DataFrame := ⟨dataCols, [blankRow]⟩

/-- Counterexample to C6 as stated: a row whose uniqueness-key value is
blank (the whitespace string) is NOT dropped before validation — it
survives step 3 into the schema check, and the whole upload then
succeeds with 0 appended rows instead of stopping, because the blank key
is only removed later by the numeric coercion inside the duplicate
check. -/
theorem blank_key_survives_into_validation :
    (step3 (step2 "" rawBlank)).rows = [blankRow] ∧
    isBlankKey (cellOf (step3 (step2 "" rawBlank)).cols blankRow "identifier") = true ∧
    uploadPipeline "" "data" dbEmpty rawBlank = .ok (dbEmpty, 0) :=
  ⟨by decide, by decide, by rfl⟩

/-- C6 amended: rows whose `identifier` cell is null are dropped by step 3
before schema and duplicate validation begins; blank (whitespace-only)
keys are not dropped there. -/
theorem null_identifier_rows_dropped_before_validation :
    ∀ (ts : String) (raw : DataFrame) (r : List Value),
      r ∈ (step3 (step2 ts raw)).rows →
        cellOf (step3 (step2 ts raw)).cols r "identifier" ≠ Value.null := by
  intro ts raw r hr
  obtain ⟨-, h2⟩ := List.mem_filter.mp hr
  exact of_decide_eq_true h2

/-- Witness for C6-amended: the blank-identifier row that survived step 3
indeed has a non-null identifier cell. -/
theorem null_identifier_rows_dropped_before_validation_witness :
    cellOf (step3 (step2 "" rawBlank)).cols blankRow "identifier" ≠ Value.null :=
  null_identifier_rows_dropped_before_validation "" rawBlank blankRow (by decide)

/-! ### C7: coercion failures are dropped silently, with no reported count -/

/-- A `data` row whose identifier is the non-numeric string `s`. -/
def strKeyRow (s : String) : List Value :=
  [Value.null, Value.null, Value.null, Value.null, Value.null, Value.null,
   Value.null, Value.null, Value.null, Value.null, Value.str s]

/-- An upload with one non-coercible key and one valid key. -/
def rawCoerceA : DataFrame := ⟨dataCols, [strKeyRow "abc", dupRow 5]⟩

/-- An upload with only the valid key. -/
def rawCoerceB : DataFrame := ⟨dataCols, [dupRow 5]⟩

/-- Counterexample to C7 as stated: two runs whose numbers of
coercion-dropped key values differ (one versus zero) produce identical
status-message logs, so no message reports the count of dropped values —
the drop is silent. -/
theorem coercion_drop_count_not_reported :
    uploadLog "" "data" dbEmpty rawCoerceA = uploadLog "" "data" dbEmpty rawCoerceB ∧
    coercionDropCount "" "data" dbEmpty rawCoerceA = 1 ∧
    coercionDropCount "" "data" dbEmpty rawCoerceB = 0 :=
  ⟨(show uploadLog "" "data" dbEmpty rawCoerceA =
      [Msg.attemptingMap, Msg.ignoredColumnsWarning ["point_measurement"],
       Msg.verifyingColumns "data", Msg.validatingTypes "identifier",
       Msg.checkingDuplicates "identifier", Msg.appendingRows 1 "data",
       Msg.successRows 1 "data", Msg.clearingCache] from rfl).trans
   (show uploadLog "" "data" dbEmpty rawCoerceB =
      [Msg.attemptingMap, Msg.ignoredColumnsWarning ["point_measurement"],
       Msg.verifyingColumns "data", Msg.validatingTypes "identifier",
       Msg.checkingDuplicates "identifier", Msg.appendingRows 1 "data",
       Msg.successRows 1 "data", Msg.clearingCache] from rfl).symm,
   by rfl, by rfl⟩

theorem coercedCell_eq (df : DataFrame) (key : String) (hk : key ∈ df.cols) :
    ∀ r : List Value,
      cellOf df.cols (df.cols.map (fun c =>
        if c = key then toNumericVal (cellOf df.cols r c) else cellOf df.cols r c)) key =
      toNumericVal (cellOf df.cols r key) := by
  intro r
  rw [cellOf_map _ hk]
  rw [if_pos rfl]

theorem dropNull_coerce_eq (df : DataFrame) (key : String) (hk : key ∈ df.cols) :
    dropNullRows (coerceKey df key) key =
      ⟨df.cols,
       (df.rows.filter (fun r => toNumericVal (cellOf df.cols r key) ≠ Value.null)).map
        (fun r => df.cols.map (fun c =>
          if c = key then toNumericVal (cellOf df.cols r c) else cellOf df.cols r c))⟩ := by
  simp only [dropNullRows, coerceKey, List.filter_map]
  congr 1
  refine congrArg _ ?_
  apply List.filter_congr
  intro r _
  simp only [Function.comp_apply, coercedCell_eq df key hk]

theorem filterMap_filter_of_none {α β : Type} (g : α → Option β) (q : α → Bool)
    (l : List α) (h : ∀ a, q a = false → g a = none) :
    (l.filter q).filterMap g = l.filterMap g := by
  induction l with
  | nil => rfl
  | cons a t ih =>
    by_cases hq : q a
    · rw [List.filter_cons_of_pos hq, List.filterMap_cons, List.filterMap_cons]
      cases g a <;> simp [ih]
    · rw [List.filter_cons_of_neg hq, List.filterMap_cons,
        h a (Bool.of_not_eq_true hq), ih]

/-- C7 amended: in the duplicate check, incoming key values are coerced to
numeric type before comparison — the integer keys handed to the
comparison are exactly the successful numeric coercions of the original
key cells — and every row whose key fails coercion is dropped, silently
(no count of the dropped values is reported; see the log
counterexample). -/
theorem coercion_precedes_comparison :
    ∀ (df : DataFrame) (key : String), key ∈ df.cols →
      keyInts (dropNullRows (coerceKey df key) key) key =
        df.rows.filterMap (fun r =>
          match toNumericVal (cellOf df.cols r key) with
          | Value.num n => some n
          | _ => none) ∧
      (dropNullRows (coerceKey df key) key).rows.length =
        (df.rows.filter (fun r => toNumericVal (cellOf df.cols r key) ≠ Value.null)).length := by
  intro df key hk
  have hcell := coercedCell_eq df key hk
  have hdf := dropNull_coerce_eq df key hk
  constructor
  · rw [hdf]
    simp only [keyInts]
    rw [List.filterMap_map]
    have hcomp : ∀ r ∈ df.rows.filter
        (fun r => toNumericVal (cellOf df.cols r key) ≠ Value.null),
        ((fun rr => match cellOf df.cols rr key with
          | Value.num n => some n
          | _ => none) ∘ (fun r => df.cols.map (fun c =>
            if c = key then toNumericVal (cellOf df.cols r c) else cellOf df.cols r c))) r =
        (fun r => match toNumericVal (cellOf df.cols r key) with
          | Value.num n => some n
          | _ => none) r := by
      intro r _
      simp only [Function.comp_apply]
      rw [hcell r]
    rw [List.filterMap_congr hcomp]
    apply filterMap_filter_of_none
    intro r hr
    have h0 : toNumericVal (cellOf df.cols r key) = Value.null :=
      not_not.mp (of_decide_eq_false hr)
    show (match toNumericVal (cellOf df.cols r key) with
      | Value.num n => some n
      | _ => none) = none
    rw [h0]
  · rw [hdf]
    exact List.length_map _ _

/-! ### C9: batches with only synthesized identifiers append zero rows -/

theorem toNumericVal_genId (ts : String) (i : Nat) :
    toNumericVal (Value.str (genId ts i)) = Value.null := rfl

/-- C9: for an upload to `data` whose identifiers were synthesized by
`map_and_clean_columns` (no uploaded column maps to `identifier`, so the
cells are `generated_(timestamp)_(i)` strings), the numeric coercion of
the duplicate-check step turns every identifier into null, all rows are
dropped, and the append writes zero rows, leaving the table unchanged —
such a batch can never be inserted. -/
theorem generated_identifiers_never_inserted :
    ∀ (ts : String) (db raw : DataFrame),
      raw.cols = dataColsNoId →
      (∀ r ∈ raw.rows, r.length = 10) →
      raw.rows ≠ [] →
      db.cols = dataCols →
      uploadPipeline ts "data" db raw = .ok (db, 0) := by
  intro ts db raw hcols hwf hne hdb
  obtain ⟨rcols, rrows⟩ := raw
  obtain rfl : rcols = dataColsNoId := hcols
  obtain ⟨dcols, drows⟩ := db
  obtain rfl : dcols = dataCols := hdb
  have hwf' : ∀ r ∈ rrows, r.length = 10 := hwf
  have hne' : rrows ≠ [] := hne
  have hcellgen : ∀ r ∈ addGenIds ts 0 rrows, ∃ i,
      cellOf dataCols r "identifier" = Value.str (genId ts i) := by
    intro r hr
    obtain ⟨i, hi⟩ := addGenIds_getD ts 0 rrows hwf' r hr
    refine ⟨i, ?_⟩
    show r.getD (dataCols.indexOf "identifier") Value.null = Value.str (genId ts i)
    rw [show dataCols.indexOf "identifier" = 10 from by decide]
    exact hi
  have h2 : step2 ts ⟨dataColsNoId, rrows⟩ = ⟨dataCols, addGenIds ts 0 rrows⟩ := rfl
  have h3 : step3 ⟨dataCols, addGenIds ts 0 rrows⟩ = ⟨dataCols, addGenIds ts 0 rrows⟩ := by
    simp only [step3, dropNullRows]
    congr 1
    apply List.filter_eq_self.mpr
    intro r hr
    obtain ⟨i, hi⟩ := hcellgen r hr
    simp only [hi]
    rfl
  have hne3 : ¬((⟨dataCols, addGenIds ts 0 rrows⟩ : DataFrame).rows.isEmpty = true) := by
    intro h
    have h0 : addGenIds ts 0 rrows = [] := List.isEmpty_iff.mp h
    have h1 : rrows.length = 0 := by
      rw [← addGenIds_length ts 0 rrows, h0]
      rfl
    exact hne' (List.length_eq_zero.mp h1)
  have hfdf2 : dropNullRows (coerceKey
      (projectCols ⟨dataCols, addGenIds ts 0 rrows⟩ dataCols) "identifier") "identifier" =
      ⟨dataCols, []⟩ := by
    rw [dropNull_coerce_eq _ _ (show "identifier" ∈ dataCols from by decide)]
    congr 1
    have hfil : ((projectCols ⟨dataCols, addGenIds ts 0 rrows⟩ dataCols).rows.filter
        (fun r => toNumericVal (cellOf
          (projectCols ⟨dataCols, addGenIds ts 0 rrows⟩ dataCols).cols r "identifier")
          ≠ Value.null)) = [] := by
      apply List.filter_eq_nil_iff.mpr
      intro r' hr'
      obtain ⟨r, hr, rfl⟩ := List.mem_map.mp hr'
      obtain ⟨i, hi⟩ := hcellgen r hr
      intro hdec
      have hval := of_decide_eq_true hdec
      apply hval
      show toNumericVal (cellOf dataCols
        (dataCols.map (fun c => cellOf dataCols r c)) "identifier") = Value.null
      rw [cellOf_map _ (show "identifier" ∈ dataCols from by decide), hi, toNumericVal_genId]
    rw [hfil]
    rfl
  show uploadPipeline ts "data" ⟨dataCols, drows⟩ ⟨dataColsNoId, rrows⟩ =
    .ok (⟨dataCols, drows⟩, 0)
  simp only [uploadPipeline]
  rw [h2]
  rw [if_pos (show (⟨dataCols, addGenIds ts 0 rrows⟩ : DataFrame).cols.contains "identifier"
    = true from by rfl)]
  rw [h3]
  rw [if_neg hne3]
  rw [if_pos (show ((⟨dataCols, drows⟩ : DataFrame).cols.filter
    (fun c => !((⟨dataCols, addGenIds ts 0 rrows⟩ : DataFrame).cols.contains c))).isEmpty
    = true from by rfl)]
  rw [show uniqueKeyMap.lookup "data" = some "identifier" from rfl]
  simp only []
  rw [if_pos (show (projectCols ⟨dataCols, addGenIds ts 0 rrows⟩
    (⟨dataCols, drows⟩ : DataFrame).cols).cols.contains "identifier" = true from by rfl)]
  rw [hfdf2]
  rw [show dupCheck (keyInts ⟨dataCols, drows⟩ "identifier") "identifier"
    (⟨dataCols, []⟩ : DataFrame) = .ok ⟨dataCols, []⟩ from rfl]
  simp only [appendStep, List.append_nil]
  rfl

/-- Witness for C9 on a concrete one-row upload without identifiers. -/
theorem generated_identifiers_never_inserted_witness :
    uploadPipeline "20250101" "data" dbEmpty
      (DataFrame.mk dataColsNoId [List.replicate 10 Value.null]) = .ok (dbEmpty, 0) :=
  generated_identifiers_never_inserted "20250101" dbEmpty
    (DataFrame.mk dataColsNoId [List.replicate 10 Value.null])
    rfl (by decide) (by decide) rfl

/-! ### C10: in-batch duplicate keys are not detected -/

/-- C10: the duplicate check compares incoming keys only against keys
already in the database; a batch of two rows sharing a key `k` that is
absent from the table passes every check, both rows are appended, and the
resulting table holds the key `k` at least twice — the per-table
key-uniqueness invariant is not preserved across a single upload. -/
theorem in_batch_duplicates_not_detected :
    ∀ (ts : String) (db : DataFrame) (k : Int),
      db.cols = dataCols →
      (∀ x ∈ keyInts db "identifier", x ≠ k) →
      uploadPipeline ts "data" db (dupRaw k) =
        .ok (⟨dataCols, db.rows ++ [dupRow k, dupRow k]⟩, 2) ∧
      2 ≤ ((db.rows ++ [dupRow k, dupRow k]).filter
        (fun r => cellOf dataCols r "identifier" = Value.num k)).length := by
  intro ts db k hdb hk
  obtain ⟨dcols, drows⟩ := db
  obtain rfl : dcols = dataCols := hdb
  have hk' : ∀ x ∈ keyInts ⟨dataCols, drows⟩ "identifier", x ≠ k := hk
  have hex : (keyInts ⟨dataCols, drows⟩ "identifier").filter
      (fun x => ([k, k] : List Int).contains x) = [] := by
    apply List.filter_eq_nil_iff.mpr
    intro x hx h
    have hm : x ∈ ([k, k] : List Int) := List.elem_iff.mp h
    rcases List.mem_cons.mp hm with h1 | h1
    · exact hk' x hx h1
    · rcases List.mem_cons.mp h1 with h2 | h2
      · exact hk' x hx h2
      · cases h2
  have hdc : dupCheck (keyInts ⟨dataCols, drows⟩ "identifier") "identifier"
      ⟨dataCols, [dupRow k, dupRow k]⟩ = .ok ⟨dataCols, [dupRow k, dupRow k]⟩ := by
    simp only [dupCheck, dupIdsOf]
    rw [show keyInts (⟨dataCols, [dupRow k, dupRow k]⟩ : DataFrame) "identifier" = [k, k]
      from rfl]
    rw [hex]
    rfl
  constructor
  · show uploadPipeline ts "data" ⟨dataCols, drows⟩ (dupRaw k) =
      .ok (⟨dataCols, drows ++ [dupRow k, dupRow k]⟩, 2)
    simp only [uploadPipeline]
    rw [show step2 ts (dupRaw k) = (⟨dataCols, [dupRow k, dupRow k]⟩ : DataFrame) from rfl]
    rw [if_pos (show (⟨dataCols, [dupRow k, dupRow k]⟩ : DataFrame).cols.contains "identifier"
      = true from by rfl)]
    rw [show step3 (⟨dataCols, [dupRow k, dupRow k]⟩ : DataFrame) =
      (⟨dataCols, [dupRow k, dupRow k]⟩ : DataFrame) from rfl]
    rw [if_neg (show ¬((⟨dataCols, [dupRow k, dupRow k]⟩ : DataFrame).rows.isEmpty = true)
      from fun h => Bool.false_ne_true h)]
    rw [if_pos (show ((⟨dataCols, drows⟩ : DataFrame).cols.filter
      (fun c => !((⟨dataCols, [dupRow k, dupRow k]⟩ : DataFrame).cols.contains c))).isEmpty
      = true from by rfl)]
    rw [show uniqueKeyMap.lookup "data" = some "identifier" from rfl]
    simp only []
    rw [if_pos (show (projectCols (⟨dataCols, [dupRow k, dupRow k]⟩ : DataFrame)
      (⟨dataCols, drows⟩ : DataFrame).cols).cols.contains "identifier" = true from by rfl)]
    rw [show dropNullRows (coerceKey (projectCols
      (⟨dataCols, [dupRow k, dupRow k]⟩ : DataFrame)
      (⟨dataCols, drows⟩ : DataFrame).cols) "identifier") "identifier" =
      (⟨dataCols, [dupRow k, dupRow k]⟩ : DataFrame) from rfl]
    rw [hdc]
    simp only [appendStep]
    rfl
  · rw [List.filter_append]
    have h2f : List.filter (fun r => decide (cellOf dataCols r "identifier" = Value.num k))
        [dupRow k, dupRow k] = [dupRow k, dupRow k] := by
      apply List.filter_eq_self.mpr
      intro r hr
      rcases List.mem_cons.mp hr with h1 | h1
      · subst h1
        exact decide_eq_true rfl
      · rcases List.mem_cons.mp h1 with h2 | h2
        · subst h2
          exact decide_eq_true rfl
        · cases h2
    rw [h2f]
    rw [List.length_append]
    exact Nat.le_add_left 2 _

/-- Witness for C10 on the empty table with key 7. -/
theorem in_batch_duplicates_not_detected_witness :
    uploadPipeline "" "data" dbEmpty (dupRaw 7) =
      .ok (⟨dataCols, dbEmpty.rows ++ [dupRow 7, dupRow 7]⟩, 2) ∧
    2 ≤ ((dbEmpty.rows ++ [dupRow 7, dupRow 7]).filter
      (fun r => cellOf dataCols r "identifier" = Value.num 7)).length :=
  in_batch_duplicates_not_detected "" dbEmpty 7 rfl (by decide)

/-- Witness for C7-amended at a concrete input with one failing key. -/
theorem coercion_precedes_comparison_witness :
    keyInts (dropNullRows (coerceKey rawCoerceA "identifier") "identifier") "identifier" =
      rawCoerceA.rows.filterMap (fun r =>
        match toNumericVal (cellOf rawCoerceA.cols r "identifier") with
        | Value.num n => some n
        | _ => none) :=
  (coercion_precedes_comparison rawCoerceA "identifier" (by decide)).1

end TCM
